import Mathlib

/-!
Verification development for the daily AI report pipeline configuration
(`app.py`) and the staged-pipeline design it expresses.

The repository is a declarative configuration over an external agent
runtime: agents (model id, tools, instructions), two teams, one workflow,
plus eager directory creation and a knowledge base.  The configuration
itself (names, session ids, output file names, step order, knowledge
flags, directory creation) is embedded below directly from the source.
The runtime behaviours the spec describes (artifact store, stage
executor, pipeline scheduler, knowledge ingestion) are not implemented in
the repository; those parts are modelled from the spec and are marked as
such in their doc comments.
-/

namespace DailyAI

/-- The artifact kinds produced by the pipeline's stages, as named in the
source instructions: hn_reddit, arxiv, daily_report, trends, the podcast
script and the podcast audio. -/
inductive Kind where
  | hnReddit
  | arxiv
  | dailyReport
  | trends
  | script
  | audio
deriving DecidableEq

/-- The exact output path each stage's instructions demand for RunDate `d`
(`app.py` lines 81, 111, 140, 208, 229 together with each agent's
FileTools base directory and the producer's target directory). -/
def artifactName (d : String) : Kind → String
  | .hnReddit => "research/hn_reddit_" ++ d ++ ".md"
  | .arxiv => "research/arxiv_" ++ d ++ ".md"
  | .dailyReport => "reports/daily_report_" ++ d ++ ".md"
  | .trends => "trends/trends_" ++ d ++ ".md"
  | .script => "podcasts/" ++ d ++ "/script.md"
  | .audio => "podcasts/" ++ d ++ "/audio.mp3"

/-- The date-partitioned directory in which a kind's artifact lives. -/
def partitionDir (d : String) : Kind → String
  | .hnReddit => "research"
  | .arxiv => "research"
  | .dailyReport => "reports"
  | .trends => "trends"
  | .script => "podcasts/" ++ d
  | .audio => "podcasts/" ++ d

/-- The configuration fields of one `Agent(...)` call in `app.py` that the
claims are about: name, user id, session id, the knowledge flags, and the
output artifact (kind and exact path) its instructions declare. -/
structure AgentConfig where
  name : String
  userId : String
  sessionId : String
  searchKnowledge : Bool
  updateKnowledge : Bool
  outKind : Kind
  outputFile : String
deriving DecidableEq

/-- `app.py` lines 65-93: the HN Reddit Researcher agent, parameterised by
the run date `TODAY`.  Its FileTools base directory is `research/` and its
instructions demand the exact file name hn_reddit_TODAY.md. -/
def hn_researcher (d : String) : AgentConfig where
  name := "HN Reddit Researcher"
  userId := "test@example.com"
  sessionId := "session_" ++ d
  searchKnowledge := false
  updateKnowledge := true
  outKind := .hnReddit
  outputFile := "research/hn_reddit_" ++ d ++ ".md"

/-- `app.py` lines 96-120: the ArXiv Researcher agent. -/
def arxiv_researcher (d : String) : AgentConfig where
  name := "ArXiv Researcher"
  userId := "test@example.com"
  sessionId := "session_" ++ d
  searchKnowledge := false
  updateKnowledge := true
  outKind := .arxiv
  outputFile := "research/arxiv_" ++ d ++ ".md"

/-- `app.py` lines 123-157: the Report Writer agent; its instructions save
to reports/daily_report_TODAY.md. -/
def writer (d : String) : AgentConfig where
  name := "Report Writer"
  userId := "test@example.com"
  sessionId := "session_" ++ d
  searchKnowledge := false
  updateKnowledge := true
  outKind := .dailyReport
  outputFile := "reports/daily_report_" ++ d ++ ".md"

/-- `app.py` lines 160-210: the Trend Analyst agent, the only agent with
search_knowledge=True; its FileTools base directory is `trends/`. -/
def trend_analyst (d : String) : AgentConfig where
  name := "Trend Analyst"
  userId := "test@example.com"
  sessionId := "session_" ++ d
  searchKnowledge := true
  updateKnowledge := true
  outKind := .trends
  outputFile := "trends/trends_" ++ d ++ ".md"

/-- `app.py` lines 213-251: the Podcast Script Writer agent. -/
def podcast_script_writer (d : String) : AgentConfig where
  name := "Podcast Script Writer"
  userId := "test@example.com"
  sessionId := "session_" ++ d
  searchKnowledge := false
  updateKnowledge := true
  outKind := .script
  outputFile := "podcasts/" ++ d ++ "/script.md"

/-- `app.py` lines 254-289: the Podcast Producer agent; ElevenLabsTools
has target directory podcasts/TODAY and the produced audio is
podcasts/TODAY/audio.mp3 (line 386). -/
def podcast_producer (d : String) : AgentConfig where
  name := "Podcast Producer"
  userId := "test@example.com"
  sessionId := "session_" ++ d
  searchKnowledge := false
  updateKnowledge := true
  outKind := .audio
  outputFile := "podcasts/" ++ d ++ "/audio.mp3"

/-- The configuration fields of a `Team(...)` call in `app.py`. -/
structure TeamConfig where
  name : String
  sessionId : String
  members : List AgentConfig
deriving DecidableEq

/-- `app.py` lines 292-306: the podcast team. -/
def podcast_team (d : String) : TeamConfig where
  name := "AI Daily Podcast Team"
  sessionId := "session_" ++ d
  members := [podcast_script_writer d, podcast_producer d]

/-- `app.py` lines 309-340: the daily report team. -/
def daily_team (d : String) : TeamConfig where
  name := "Daily AI Report Team"
  sessionId := "session_" ++ d
  members := [hn_researcher d, arxiv_researcher d, writer d]

/-- The configuration fields of the `Workflow(...)` call in `app.py`. -/
structure WorkflowConfig where
  name : String
  sessionId : String
  steps : List AgentConfig
deriving DecidableEq

/-- `app.py` lines 343-356: the daily workflow, whose steps are the five
agents hn_researcher, arxiv_researcher, writer, podcast_script_writer,
podcast_producer in that order (trend_analyst is not a step). -/
def daily_workflow (d : String) : WorkflowConfig where
  name := "Daily AI Report Workflow"
  sessionId := "workflow_session_" ++ d
  steps :=
    [hn_researcher d, arxiv_researcher d, writer d,
     podcast_script_writer d, podcast_producer d]

/-- The configuration fields of the `AgentOS(...)` call in `app.py`. -/
structure AgentOSConfig where
  name : String
  agents : List AgentConfig
  teams : List TeamConfig
  workflows : List WorkflowConfig
deriving DecidableEq

/-- `app.py` lines 359-364: the AgentOS registration. -/
def agent_os (d : String) : AgentOSConfig where
  name := "Daily AI Report System"
  agents :=
    [hn_researcher d, arxiv_researcher d, writer d, trend_analyst d,
     podcast_script_writer d, podcast_producer d]
  teams := [daily_team d, podcast_team d]
  workflows := [daily_workflow d]

/-- `app.py` line 34: the per-date episode directory podcasts/TODAY. -/
def episode_dir (d : String) : String := "podcasts/" ++ d

/-- Filesystem state for the directory-creation and artifact-store model:
the set of existing directories and the written files (path, content). -/
structure FS where
  dirs : List String
  files : List (String × String)
deriving DecidableEq

/-- One `Path.mkdir(exist_ok=True)` call: creates the directory if it does
not already exist. -/
def mkdirEx (fs : FS) (p : String) : FS :=
  if p ∈ fs.dirs then fs else { fs with dirs := fs.dirs ++ [p] }

/-- `app.py` lines 29-39: module initialisation creates reports/,
research/, trends/, podcasts/ and podcasts/TODAY/ eagerly, in that order,
before any stage runs or any file is written. -/
def moduleInit (d : String) : FS :=
  mkdirEx
    (mkdirEx
      (mkdirEx
        (mkdirEx
          (mkdirEx { dirs := [], files := [] } "reports")
          "research")
        "trends")
      "podcasts")
    ("podcasts/" ++ d)

/-- Modelled from the spec: the Artifact Store of section 4.1 (the actual
store is the external runtime's FileTools).  A store is an association
list from path to content. -/
def Store := List (String × String)

/-- Modelled from the spec: ArtifactStore.read by exact path; returns the
content or none (NotFound). -/
def readExact : Store → String → Option String
  | [], _ => none
  | (q, c) :: t, p => if q = p then some c else readExact t p

/-- Modelled from the spec: ArtifactStore.write overwrites an existing
entry for the path or appends a new one (idempotent overwrite). -/
def write : Store → String → String → Store
  | [], p, c => [(p, c)]
  | (q, c0) :: t, p, c =>
    if q = p then (q, c) :: t else (q, c0) :: write t p c

/-- The paths present in a store. -/
def keys (store : Store) : List String := store.map Prod.fst

/-- Checks that `pre` is a leading segment of `s` (character lists). -/
def leadsWith : List Char → List Char → Bool
  | [], _ => true
  | _ :: _, [] => false
  | a :: as, b :: bs => a = b && leadsWith as bs

/-- Checks that `sub` occurs somewhere inside `s` (character lists). -/
def occursIn (sub : List Char) : List Char → Bool
  | [] => leadsWith sub []
  | c :: t => leadsWith sub (c :: t) || occursIn sub t

/-- String containment: `sub` occurs as a substring of `s`. -/
def containsSub (s sub : String) : Bool := occursIn sub.toList s.toList

/-- Modelled from the spec: ArtifactStore.findByPattern returns the stored
paths inside directory `dir` whose name contains `sub` as a substring. -/
def findByPattern (store : Store) (dir sub : String) : List String :=
  (keys store).filter
    (fun p => leadsWith (dir ++ "/").toList p.toList && containsSub p sub)

/-- Modelled from the spec: StageResult.status, one of ok, degraded or
failed. -/
inductive Status where
  | ok
  | degraded
  | failed
deriving DecidableEq

/-- Modelled from the spec: the outcome of the external capability a stage
invokes — text produced, an empty result, or a capability failure
(error or timeout). -/
inductive Capability where
  | success (text : String)
  | emptyResult
  | failure
deriving DecidableEq

/-- Modelled from the spec: the environment one stage execution faces: the
external capability's outcome and whether the storage layer raises an
IOError on the stage's write. -/
structure StageEnv where
  capability : Capability
  storageFault : Bool
deriving DecidableEq

/-- The benign environment used when none is supplied. -/
def defaultEnv : StageEnv := ⟨.emptyResult, false⟩

/-- Modelled from the spec: one configured stage — its output artifact
kind and the upstream artifact kinds it reads. -/
structure Stage where
  kind : Kind
  upstream : List Kind
deriving DecidableEq

/-- Modelled from the spec, section 4.3 step 1: gather one upstream input.
Try the exact expected file name; on NotFound fall back to findByPattern
over the same partition with the RunDate as the matching substring; if
still absent return no content and the degraded marker. -/
def gatherOne (store : Store) (d : String) (k : Kind) : Option String × Bool :=
  match readExact store (artifactName d k) with
  | some c => (some c, false)
  | none =>
    match findByPattern store (partitionDir d k) d with
    | [] => (none, true)
    | p :: _ => (readExact store p, false)

/-- Modelled from the spec: gather all declared upstream inputs; missing
inputs become the empty string and set the degraded marker. -/
def gatherAll (store : Store) (d : String) : List Kind → List String × Bool
  | [] => ([], false)
  | k :: ks =>
    let one := gatherOne store d k
    let rest := gatherAll store d ks
    (one.1.getD "" :: rest.1, one.2 || rest.2)

/-- Modelled from the spec: the explicitly marked placeholder artifact a
stage writes when its capability fails or returns nothing. -/
def placeholder (d : String) (k : Kind) : String :=
  "PLACEHOLDER " ++ artifactName d k ++ ": no content available"

/-- Modelled from the spec, section 4.3: execute one stage.  Gather the
upstream inputs; invoke the capability (an empty result or a failure
yields the placeholder and degrades the stage); write the output artifact
under its deterministic name.  A storage IOError on the write makes the
stage failed and leaves the store unchanged. -/
def runStage (d : String) (store : Store) (s : Stage) (env : StageEnv) :
    Store × Status :=
  let gathered := gatherAll store d s.upstream
  if env.storageFault then (store, .failed)
  else
    match env.capability with
    | .success t =>
      (write store (artifactName d s.kind) t,
       if gathered.2 then .degraded else .ok)
    | .emptyResult =>
      (write store (artifactName d s.kind) (placeholder d s.kind), .degraded)
    | .failure =>
      (write store (artifactName d s.kind) (placeholder d s.kind), .degraded)

/-- Modelled from the spec, section 4.4: the scheduler's state machine per
run. -/
inductive SchedState where
  | Pending
  | Running (k : Kind)
  | Completed
  | Aborted (k : Kind)
deriving DecidableEq

/-- Modelled from the spec, section 4.4: run the stages strictly in order
against the store.  After each stage, a failed StageResult transitions the
run to Aborted recording which stage halted it; ok and degraded results
let the next stage start.  Completed is reached once every stage has a
StageResult. -/
def runSteps (d : String) (store : Store) :
    List Stage → List StageEnv → Store × SchedState
  | [], _ => (store, .Completed)
  | s :: rest, envs =>
    let out := runStage d store s (envs.headD defaultEnv)
    if out.2 = .failed then (out.1, .Aborted s.kind)
    else runSteps d out.1 rest envs.tail

/-- The stage graph of the daily workflow, in the order of the `steps`
list at `app.py` lines 349-355; each stage's upstream kinds are the files
its instructions read (the writer reads both research files, the script
writer reads the daily report, the producer reads the script). -/
def pipelineStages : List Stage :=
  [⟨.hnReddit, []⟩, ⟨.arxiv, []⟩, ⟨.dailyReport, [.hnReddit, .arxiv]⟩,
   ⟨.script, [.dailyReport]⟩, ⟨.audio, [.script]⟩]

/-- One full pipeline run for RunDate `d` from an empty store. -/
def runPipeline (d : String) (envs : List StageEnv) : Store × SchedState :=
  runSteps d [] pipelineStages envs

/-- The kinds of the workflow's stages in execution order. -/
def pipelineKinds : List Kind := pipelineStages.map Stage.kind

/-- Modelled from the spec: scheduler events — a stage starting and a
stage finishing. -/
inductive Event where
  | start (k : Kind)
  | finish (k : Kind)
deriving DecidableEq

/-- Modelled from the spec, sections 4.4 and 5: the single logical thread
of control executes the stages strictly sequentially, so the event trace
of a run interleaves nothing: each stage starts and finishes before the
next stage starts. -/
def runTrace : List Stage → List Event
  | [] => []
  | s :: rest => .start s.kind :: .finish s.kind :: runTrace rest

/-- Modelled from the spec: a KnowledgeEntry — the indexed representation
of an artifact, keyed by (RunDate, kind), holding its text content. -/
structure KnowledgeEntry where
  runDate : String
  kind : Kind
  content : String
deriving DecidableEq

/-- Whether an entry carries key (rd, kd). -/
def sameKey (rd : String) (kd : Kind) (e : KnowledgeEntry) : Bool :=
  decide (e.runDate = rd) && decide (e.kind = kd)

/-- Modelled from the spec, section 4.2: KnowledgeIndex.ingest — stores
the entry; re-ingesting an already-seen (RunDate, kind) key replaces the
prior entry rather than duplicating it. -/
def ingest (idx : List KnowledgeEntry) (e : KnowledgeEntry) :
    List KnowledgeEntry :=
  idx.filter (fun x => !(sameKey e.runDate e.kind x)) ++ [e]

/-- Modelled from the spec: searching the index for the entries of one
(RunDate, kind) key. -/
def searchByKey (idx : List KnowledgeEntry) (rd : String) (kd : Kind) :
    List KnowledgeEntry :=
  idx.filter (sameKey rd kd)

/-- Adding a path to a key set: no-op when present, else appended. -/
def insertKey (ks : List String) (p : String) : List String :=
  if p ∈ ks then ks else ks ++ [p]

/-- The key set obtained by inserting the stages' artifact names in
order. -/
def pathFold (d : String) (stages : List Stage) (ks : List String) :
    List String :=
  stages.foldl (fun acc s => insertKey acc (artifactName d s.kind)) ks

theorem insertKey_mem_self (ks : List String) (p : String) :
    p ∈ insertKey ks p := by
  by_cases h : p ∈ ks <;> simp [insertKey, h]

theorem mem_insertKey (ks : List String) (p q : String) (h : q ∈ ks) :
    q ∈ insertKey ks p := by
  by_cases hp : p ∈ ks <;> simp [insertKey, hp, h]

theorem insertKey_of_mem (ks : List String) (p : String) (h : p ∈ ks) :
    insertKey ks p = ks := by
  simp [insertKey, h]

theorem keys_write (store : Store) (p c : String) :
    keys (write store p c) = insertKey (keys store) p := by
  induction store with
  | nil => simp [write, keys, insertKey]
  | cons hd t ih =>
    obtain ⟨q, c0⟩ := hd
    by_cases hq : q = p
    · subst hq
      simp [write, keys, insertKey]
    · have hq' : ¬(p = q) := fun h => hq h.symm
      have hwrite : write ((q, c0) :: t) p c = (q, c0) :: write t p c := by
        simp [write, hq]
      have hkc : keys ((q, c0) :: write t p c) = q :: keys (write t p c) := rfl
      have hkc' : keys ((q, c0) :: t) = q :: keys t := rfl
      rw [hwrite, hkc, ih, hkc']
      by_cases hp : p ∈ keys t
      · rw [insertKey_of_mem _ _ hp,
          insertKey_of_mem _ _ (List.mem_cons_of_mem q hp)]
      · simp [insertKey, hp, hq', List.mem_cons]

theorem readExact_write (store : Store) (p c : String) :
    readExact (write store p c) p = some c := by
  induction store with
  | nil => simp [write, readExact]
  | cons hd t ih =>
    obtain ⟨q, c0⟩ := hd
    by_cases hq : q = p <;> simp [write, readExact, hq, ih]

theorem runStage_fault (d : String) (store : Store) (s : Stage)
    (env : StageEnv) (h : env.storageFault = true) :
    runStage d store s env = (store, Status.failed) := by
  simp [runStage, h]

theorem runStage_noFault_eq (d : String) (store : Store) (s : Stage)
    (cap : Capability) :
    runStage d store s ⟨cap, false⟩ =
      (write store (artifactName d s.kind)
        (match cap with
         | .success t => t
         | _ => placeholder d s.kind),
       match cap with
       | .success _ =>
         if (gatherAll store d s.upstream).2 then Status.degraded
         else Status.ok
       | _ => Status.degraded) := by
  cases cap <;> rfl

theorem runStage_noFault_status (d : String) (store : Store) (s : Stage)
    (env : StageEnv) (h : env.storageFault = false) :
    (runStage d store s env).2 ≠ Status.failed := by
  obtain ⟨cap, fault⟩ := env
  simp only at h
  subst h
  rw [runStage_noFault_eq]
  cases cap
  · show (if (gatherAll store d s.upstream).2 = true then Status.degraded
      else Status.ok) ≠ Status.failed
    split <;> simp
  · simp
  · simp

theorem runStage_noFault_keys (d : String) (store : Store) (s : Stage)
    (env : StageEnv) (h : env.storageFault = false) :
    keys (runStage d store s env).1 =
      insertKey (keys store) (artifactName d s.kind) := by
  obtain ⟨cap, fault⟩ := env
  simp only at h
  subst h
  rw [runStage_noFault_eq]
  exact keys_write store _ _

theorem runSteps_noFault (d : String) (stages : List Stage) :
    ∀ (store : Store) (envs : List StageEnv),
      (∀ e ∈ envs, e.storageFault = false) →
      keys (runSteps d store stages envs).1 = pathFold d stages (keys store) ∧
      (runSteps d store stages envs).2 = SchedState.Completed := by
  induction stages with
  | nil =>
    intro store envs _
    simp [runSteps, pathFold]
  | cons s rest ih =>
    intro store envs h
    have h0 : (envs.headD defaultEnv).storageFault = false := by
      cases envs with
      | nil => rfl
      | cons e es => exact h e (List.mem_cons_self e es)
    have htail : ∀ e ∈ envs.tail, e.storageFault = false := by
      cases envs with
      | nil => intro e he; exact absurd he (List.not_mem_nil e)
      | cons e0 es => intro e he; exact h e (List.mem_cons_of_mem e0 he)
    have hst := runStage_noFault_status d store s (envs.headD defaultEnv) h0
    have hkeys := runStage_noFault_keys d store s (envs.headD defaultEnv) h0
    have hrest :=
      ih (runStage d store s (envs.headD defaultEnv)).1 envs.tail htail
    simp only [runSteps]
    rw [if_neg hst]
    refine ⟨?_, hrest.2⟩
    rw [hrest.1, hkeys]
    simp [pathFold]

theorem pathFold_mono (d : String) (stages : List Stage) :
    ∀ (ks : List String) (p : String), p ∈ ks → p ∈ pathFold d stages ks := by
  induction stages with
  | nil =>
    intro ks p h
    simpa [pathFold] using h
  | cons s rest ih =>
    intro ks p h
    exact ih (insertKey ks (artifactName d s.kind)) p (mem_insertKey _ _ _ h)

theorem pathFold_mem (d : String) (stages : List Stage) :
    ∀ (ks : List String) (s : Stage), s ∈ stages →
      artifactName d s.kind ∈ pathFold d stages ks := by
  induction stages with
  | nil =>
    intro ks s h
    exact absurd h (List.not_mem_nil s)
  | cons s0 rest ih =>
    intro ks s h
    rcases List.mem_cons.mp h with h | h
    · subst h
      exact pathFold_mono d rest _ _ (insertKey_mem_self ks _)
    · exact ih (insertKey ks (artifactName d s0.kind)) s h

theorem pathFold_of_subset (d : String) (stages : List Stage) :
    ∀ ks : List String,
      (∀ s ∈ stages, artifactName d s.kind ∈ ks) →
      pathFold d stages ks = ks := by
  induction stages with
  | nil => intro ks _; rfl
  | cons s0 rest ih =>
    intro ks h
    have h0 : artifactName d s0.kind ∈ ks := h s0 (List.mem_cons_self s0 rest)
    have hstep :
        pathFold d (s0 :: rest) ks =
          pathFold d rest (insertKey ks (artifactName d s0.kind)) := rfl
    rw [hstep, insertKey_of_mem _ _ h0]
    exact ih ks (fun s hs => h s (List.mem_cons_of_mem s0 hs))

/-- Position of the first occurrence of an event in a trace (length of
the trace when absent). -/
def idxOf (e : Event) : List Event → Nat
  | [] => 0
  | x :: t => if x = e then 0 else idxOf e t + 1

theorem sameKey_self (e : KnowledgeEntry) :
    sameKey e.runDate e.kind e = true := by
  simp [sameKey]

theorem filter_not_filter (p : KnowledgeEntry → Bool)
    (l : List KnowledgeEntry) :
    (l.filter (fun x => !(p x))).filter p = [] := by
  induction l with
  | nil => rfl
  | cons x t ih =>
    by_cases hx : p x = true
    · simp [List.filter_cons, hx, ih]
    · have hx' : p x = false := by simpa using hx
      simp [List.filter_cons, hx', ih]

theorem searchByKey_other (rd : String) (kd : Kind) (e : KnowledgeEntry)
    (h : ¬(rd = e.runDate ∧ kd = e.kind)) (idx : List KnowledgeEntry) :
    (idx.filter (fun x => !(sameKey e.runDate e.kind x))).filter
        (sameKey rd kd) =
      idx.filter (sameKey rd kd) := by
  induction idx with
  | nil => rfl
  | cons x t ih =>
    by_cases hx : sameKey rd kd x = true
    · have hx' : x.runDate = rd ∧ x.kind = kd := by
        simpa [sameKey] using hx
      have hpx : sameKey e.runDate e.kind x = false := by
        by_contra hc
        have hc' : x.runDate = e.runDate ∧ x.kind = e.kind := by
          simpa [sameKey] using hc
        exact h ⟨hx'.1.symm.trans hc'.1, hx'.2.symm.trans hc'.2⟩
      simp [List.filter_cons, hx, hpx, ih]
    · have hx' : sameKey rd kd x = false := by simpa using hx
      by_cases hpx : sameKey e.runDate e.kind x = true
      · simp [List.filter_cons, hx', hpx, ih]
      · have hpx' : sameKey e.runDate e.kind x = false := by simpa using hpx
        simp [List.filter_cons, hx', hpx', ih]

theorem gatherAll_flag (store : Store) (d : String) (k : Kind) :
    ∀ ks : List Kind, k ∈ ks → (gatherOne store d k).2 = true →
      (gatherAll store d ks).2 = true := by
  intro ks
  induction ks with
  | nil => intro hk; exact absurd hk (List.not_mem_nil k)
  | cons k0 rest ih =>
    intro hk h
    rcases List.mem_cons.mp hk with hk | hk
    · subst hk
      simp [gatherAll, h]
    · simp [gatherAll, ih hk h]

theorem mkdirEx_files (fs : FS) (p : String) :
    (mkdirEx fs p).files = fs.files := by
  by_cases h : p ∈ fs.dirs <;> simp [mkdirEx, h]

theorem append_ne_of_length_lt (s t r : String)
    (h : r.length < s.length) : s ++ t ≠ r := by
  intro he
  have hl := congrArg String.length he
  rw [String.length_append] at hl
  omega

/-- C1: For every RunDate d, each stage's output artifact name is the
pure function artifactName of (d, kind), following the convention
kind_RunDate.md for the markdown artifacts with the podcast script at
podcasts/RunDate/script.md; two pipeline runs for the same d (no storage
faults) yield exactly the same artifact names and both end in scheduler
state Completed, and a rerun over the first run's store overwrites in
place without accumulating new names. -/
theorem c1_idempotent_artifact_naming (d : String) (e1 e2 : List StageEnv)
    (h1 : ∀ e ∈ e1, e.storageFault = false)
    (h2 : ∀ e ∈ e2, e.storageFault = false) :
    keys (runPipeline d e1).1 = keys (runPipeline d e2).1 ∧
    (runPipeline d e1).2 = SchedState.Completed ∧
    (runPipeline d e2).2 = SchedState.Completed ∧
    keys (runSteps d (runPipeline d e1).1 pipelineStages e2).1 =
      keys (runPipeline d e1).1 ∧
    (runSteps d (runPipeline d e1).1 pipelineStages e2).2 =
      SchedState.Completed ∧
    artifactName d Kind.hnReddit =
      "research/" ++ "hn_reddit" ++ "_" ++ d ++ ".md" ∧
    artifactName d Kind.arxiv =
      "research/" ++ "arxiv" ++ "_" ++ d ++ ".md" ∧
    artifactName d Kind.dailyReport =
      "reports/" ++ "daily_report" ++ "_" ++ d ++ ".md" ∧
    artifactName d Kind.trends =
      "trends/" ++ "trends" ++ "_" ++ d ++ ".md" ∧
    artifactName d Kind.script = "podcasts/" ++ d ++ "/script.md" ∧
    artifactName d Kind.audio = "podcasts/" ++ d ++ "/audio.mp3" := by
  have r1 : keys (runPipeline d e1).1 = pathFold d pipelineStages [] :=
    (runSteps_noFault d pipelineStages [] e1 h1).1
  have r2 : keys (runPipeline d e2).1 = pathFold d pipelineStages [] :=
    (runSteps_noFault d pipelineStages [] e2 h2).1
  have r1c : (runPipeline d e1).2 = SchedState.Completed :=
    (runSteps_noFault d pipelineStages [] e1 h1).2
  have r2c : (runPipeline d e2).2 = SchedState.Completed :=
    (runSteps_noFault d pipelineStages [] e2 h2).2
  have hsub : ∀ s ∈ pipelineStages,
      artifactName d s.kind ∈ keys (runPipeline d e1).1 := by
    intro s hs
    rw [r1]
    exact pathFold_mem d pipelineStages [] s hs
  have r3 :=
    runSteps_noFault d pipelineStages (runPipeline d e1).1 e2 h2
  refine ⟨r1.trans r2.symm, r1c, r2c, ?_, r3.2, rfl, rfl, rfl, rfl, rfl, rfl⟩
  rw [r3.1]
  exact pathFold_of_subset d pipelineStages (keys (runPipeline d e1).1) hsub

/-- Witness for C1 at the concrete RunDate 2024-05-01 with benign
environments. -/
theorem c1_idempotent_artifact_naming_witness :
    (runPipeline "2024-05-01" []).2 = SchedState.Completed ∧
    keys (runSteps "2024-05-01" (runPipeline "2024-05-01" []).1
        pipelineStages []).1 =
      keys (runPipeline "2024-05-01" []).1 := by
  have h := c1_idempotent_artifact_naming "2024-05-01" [] []
    (by intro e he; exact absurd he (List.not_mem_nil e))
    (by intro e he; exact absurd he (List.not_mem_nil e))
  exact ⟨h.2.1, h.2.2.2.1⟩

/-- C2: The daily workflow's steps are the five agents HN/Reddit
research, ArXiv research, report writing, podcast script, podcast audio,
in exactly that order, and the sequential execution trace has no parallel
fan-out: for every pair of stages i < j, stage i finishes strictly before
stage j starts. -/
theorem c2_strict_sequential_order :
    pipelineKinds =
      [Kind.hnReddit, Kind.arxiv, Kind.dailyReport, Kind.script,
       Kind.audio] ∧
    (∀ d : String, ((daily_workflow d).steps).map AgentConfig.name =
      ["HN Reddit Researcher", "ArXiv Researcher", "Report Writer",
       "Podcast Script Writer", "Podcast Producer"]) ∧
    (∀ d : String,
      ((daily_workflow d).steps).map AgentConfig.outKind = pipelineKinds) ∧
    ∀ i j : Fin 5, i < j →
      idxOf (Event.finish (pipelineKinds.getD i.val Kind.hnReddit))
          (runTrace pipelineStages) <
        idxOf (Event.start (pipelineKinds.getD j.val Kind.hnReddit))
          (runTrace pipelineStages) := by
  refine ⟨rfl, fun d => rfl, fun d => rfl, ?_⟩
  decide

/-- Witness for C2: the first stage finishes before the second starts. -/
theorem c2_strict_sequential_order_witness :
    idxOf (Event.finish (pipelineKinds.getD (0 : Fin 5).val Kind.hnReddit))
        (runTrace pipelineStages) <
      idxOf (Event.start (pipelineKinds.getD (1 : Fin 5).val Kind.hnReddit))
        (runTrace pipelineStages) :=
  c2_strict_sequential_order.2.2.2 0 1 (by decide)

/-- C8: After each stage the scheduler aborts exactly when that stage's
StageResult is failed, recording which stage halted the run; degraded
results never halt progression (a capability failure without a storage
fault yields degraded, so runs with no storage fault always complete),
while a storage IOError makes the stage failed and the run Aborted. -/
theorem c8_abort_exactly_on_failed (d : String) (store : Store) :
    (∀ (s : Stage) (env : StageEnv),
      (runStage d store s env).2 = Status.failed ↔
        env.storageFault = true) ∧
    (∀ s : Stage,
      (runStage d store s ⟨Capability.failure, false⟩).2 =
        Status.degraded) ∧
    (∀ (stages : List Stage) (envs : List StageEnv),
      (∀ e ∈ envs, e.storageFault = false) →
      (runSteps d store stages envs).2 = SchedState.Completed) ∧
    (∀ (s : Stage) (stages : List Stage) (env : StageEnv)
        (envs : List StageEnv),
      env.storageFault = true →
      (runSteps d store (s :: stages) (env :: envs)).2 =
        SchedState.Aborted s.kind) := by
  refine ⟨?_, ?_, ?_, ?_⟩
  · intro s env
    constructor
    · intro h
      cases henv : env.storageFault
      · exact absurd h (runStage_noFault_status d store s env henv)
      · rfl
    · intro h
      rw [runStage_fault d store s env h]
  · intro s
    rw [runStage_noFault_eq]
  · intro stages envs h
    exact (runSteps_noFault d stages store envs h).2
  · intro s stages env envs h
    simp only [runSteps, List.headD_cons]
    rw [runStage_fault d store s env h]
    simp

/-- Witness for C8: a storage fault on the first stage aborts the run
there; benign environments complete it. -/
theorem c8_abort_exactly_on_failed_witness :
    (runSteps "2024-05-01" [] (pipelineStages)
        [⟨Capability.success "news", true⟩]).2 =
      SchedState.Aborted Kind.hnReddit := by
  have h := (c8_abort_exactly_on_failed "2024-05-01" []).2.2.2
    ⟨Kind.hnReddit, []⟩
    [⟨Kind.arxiv, []⟩, ⟨Kind.dailyReport, [Kind.hnReddit, Kind.arxiv]⟩,
     ⟨Kind.script, [Kind.dailyReport]⟩, ⟨Kind.audio, [Kind.script]⟩]
    ⟨Capability.success "news", true⟩ [] rfl
  exact h

/-- C3: When a stage's expected upstream artifact is not found by exact
name, it falls back to searching the same partition for any stored file
whose name contains the RunDate as a substring and uses the file found;
only when that fallback also yields nothing does it proceed with empty
input, and the eventual StageResult of any stage declaring that upstream
(in particular the report writer) is then degraded. -/
theorem c3_fallback_lookup (store : Store) (d : String) (k : Kind)
    (hmiss : readExact store (artifactName d k) = none) :
    (∀ p ps, findByPattern store (partitionDir d k) d = p :: ps →
      gatherOne store d k = (readExact store p, false)) ∧
    (findByPattern store (partitionDir d k) d = [] →
      gatherOne store d k = (none, true)) ∧
    (∀ s : Stage, k ∈ s.upstream →
      gatherOne store d k = (none, true) →
      ∀ env : StageEnv, env.storageFault = false →
        (runStage d store s env).2 = Status.degraded) := by
  refine ⟨?_, ?_, ?_⟩
  · intro p ps hfind
    simp [gatherOne, hmiss, hfind]
  · intro hfind
    simp [gatherOne, hmiss, hfind]
  · intro s hk hforced env henv
    have hflag : (gatherAll store d s.upstream).2 = true :=
      gatherAll_flag store d k s.upstream hk (by rw [hforced])
    obtain ⟨cap, fault⟩ := env
    simp only at henv
    subst henv
    rw [runStage_noFault_eq]
    cases cap
    · show (if (gatherAll store d s.upstream).2 = true then Status.degraded
        else Status.ok) = Status.degraded
      rw [if_pos hflag]
    · rfl
    · rfl

/-- Witness for C3: with only a misnamed research file stored, the HN
stage's exact read misses and the fallback finds the file containing the
RunDate. -/
theorem c3_fallback_lookup_witness :
    gatherOne [("research/ai_news_2024-05-01.md", "fallback news")]
        "2024-05-01" Kind.hnReddit =
      (readExact [("research/ai_news_2024-05-01.md", "fallback news")]
        "research/ai_news_2024-05-01.md", false) :=
  (c3_fallback_lookup
      [("research/ai_news_2024-05-01.md", "fallback news")]
      "2024-05-01" Kind.hnReddit (by decide)).1
    "research/ai_news_2024-05-01.md" [] (by decide)

/-- C4: Every stage without a storage fault writes its declared output
artifact: some content is always stored under the stage's deterministic
name, the stage never ends failed, and when the capability returns an
empty result or fails the stored content is the explicitly marked
placeholder, so the run does not abort and no expected artifact is
silently skipped. -/
theorem c4_always_writes (d : String) (store : Store) (s : Stage)
    (env : StageEnv) (h : env.storageFault = false) :
    (∃ c, readExact (runStage d store s env).1 (artifactName d s.kind) =
      some c) ∧
    (runStage d store s env).2 ≠ Status.failed ∧
    ((env.capability = Capability.emptyResult ∨
      env.capability = Capability.failure) →
      readExact (runStage d store s env).1 (artifactName d s.kind) =
        some (placeholder d s.kind)) := by
  obtain ⟨cap, fault⟩ := env
  simp only at h
  subst h
  refine ⟨?_, runStage_noFault_status d store s ⟨cap, false⟩ rfl, ?_⟩
  · rw [runStage_noFault_eq]
    exact ⟨_, readExact_write store _ _⟩
  · intro hcap
    cases cap
    · rcases hcap with hcap | hcap <;> exact absurd hcap (by simp)
    · rw [runStage_noFault_eq]
      exact readExact_write store _ _
    · rw [runStage_noFault_eq]
      exact readExact_write store _ _

/-- Witness for C4: an empty fetch still writes the placeholder artifact
under the deterministic name. -/
theorem c4_always_writes_witness :
    readExact
        (runStage "2024-05-01" [] ⟨Kind.hnReddit, []⟩
          ⟨Capability.emptyResult, false⟩).1
        (artifactName "2024-05-01" Kind.hnReddit) =
      some (placeholder "2024-05-01" Kind.hnReddit) :=
  (c4_always_writes "2024-05-01" [] ⟨Kind.hnReddit, []⟩
    ⟨Capability.emptyResult, false⟩ rfl).2.2 (Or.inl rfl)

/-- C5: Ingesting an artifact for a (RunDate, kind) key — whether or not
the key was already seen, however many times it was previously
re-ingested — leaves exactly one KnowledgeEntry for that key, the one
just ingested: searching by the key afterwards returns exactly one
match. -/
theorem c5_ingest_replaces (idx : List KnowledgeEntry)
    (e : KnowledgeEntry) :
    searchByKey (ingest idx e) e.runDate e.kind = [e] ∧
    (searchByKey (ingest idx e) e.runDate e.kind).length = 1 := by
  have h1 : searchByKey (ingest idx e) e.runDate e.kind = [e] := by
    simp only [searchByKey, ingest, List.filter_append]
    rw [filter_not_filter (sameKey e.runDate e.kind) idx]
    simp [sameKey_self]
  exact ⟨h1, by rw [h1]; rfl⟩

/-- Counterexample for C6 as stated: re-ingesting the already-seen key
(2024-05-01, hnReddit) with new content removes the prior entry from the
set of KnowledgeEntries; the entry set is not superset-monotone under
ingestion. -/
theorem c6_counterexample :
    (⟨"2024-05-01", Kind.hnReddit, "version one"⟩ : KnowledgeEntry) ∈
      ingest [] ⟨"2024-05-01", Kind.hnReddit, "version one"⟩ ∧
    (⟨"2024-05-01", Kind.hnReddit, "version one"⟩ : KnowledgeEntry) ∉
      ingest (ingest [] ⟨"2024-05-01", Kind.hnReddit, "version one"⟩)
        ⟨"2024-05-01", Kind.hnReddit, "version two"⟩ := by
  decide

/-- C6 amended: ingestion never touches entries of a different
(RunDate, kind) key — searching any other key is unchanged and every
entry with a different key survives — so no run deletes another
RunDate's entries and the set of keys never shrinks; only the entry for
the re-ingested key itself is replaced in place. -/
theorem c6_other_keys_preserved (idx : List KnowledgeEntry)
    (e : KnowledgeEntry) (rd : String) (kd : Kind)
    (h : ¬(rd = e.runDate ∧ kd = e.kind)) :
    searchByKey (ingest idx e) rd kd = searchByKey idx rd kd ∧
    ∀ x ∈ idx, sameKey e.runDate e.kind x = false → x ∈ ingest idx e := by
  constructor
  · simp only [searchByKey, ingest, List.filter_append]
    rw [searchByKey_other rd kd e h idx]
    have he : sameKey rd kd e = false := by
      by_contra hc
      have hc' : e.runDate = rd ∧ e.kind = kd := by
        simpa [sameKey] using hc
      exact h ⟨hc'.1.symm, hc'.2.symm⟩
    simp [List.filter_cons, he]
  · intro x hx hkey
    refine List.mem_append.mpr (Or.inl ?_)
    exact List.mem_filter.mpr ⟨hx, by simp [hkey]⟩

/-- Witness for C6 amended: ingesting a 2024-05-02 arxiv artifact leaves
the search for the 2024-05-01 hnReddit key unchanged. -/
theorem c6_other_keys_preserved_witness :
    searchByKey
        (ingest [⟨"2024-05-01", Kind.hnReddit, "version one"⟩]
          ⟨"2024-05-02", Kind.arxiv, "papers"⟩)
        "2024-05-01" Kind.hnReddit =
      searchByKey [⟨"2024-05-01", Kind.hnReddit, "version one"⟩]
        "2024-05-01" Kind.hnReddit :=
  (c6_other_keys_preserved [⟨"2024-05-01", Kind.hnReddit, "version one"⟩]
    ⟨"2024-05-02", Kind.arxiv, "papers"⟩ "2024-05-01" Kind.hnReddit
    (by decide)).1

/-- Counterexample for C7 as stated: after module initialisation and
before any write has occurred (the file store is empty), the
date-partitioned directories — including the episode partition
podcasts/2024-05-01 — already exist: an operation other than write
brought them into existence. -/
theorem c7_counterexample :
    (moduleInit "2024-05-01").files = [] ∧
    "podcasts/2024-05-01" ∈ (moduleInit "2024-05-01").dirs ∧
    "reports" ∈ (moduleInit "2024-05-01").dirs ∧
    "research" ∈ (moduleInit "2024-05-01").dirs ∧
    "trends" ∈ (moduleInit "2024-05-01").dirs := by
  decide

/-- C7 amended: the program creates the partition directories reports/,
research/, trends/, podcasts/ and podcasts/RunDate/ eagerly at module
initialisation, in that order and before any write (the file store is
still empty), rather than as a side effect of the first write. -/
theorem c7_dirs_created_at_init (d : String) :
    (moduleInit d).dirs =
      ["reports", "research", "trends", "podcasts", "podcasts/" ++ d] ∧
    (moduleInit d).files = [] := by
  have h1 : ("podcasts/" ++ d) ≠ "reports" :=
    append_ne_of_length_lt _ _ _ (by decide)
  have h2 : ("podcasts/" ++ d) ≠ "research" :=
    append_ne_of_length_lt _ _ _ (by decide)
  have h3 : ("podcasts/" ++ d) ≠ "trends" :=
    append_ne_of_length_lt _ _ _ (by decide)
  have h4 : ("podcasts/" ++ d) ≠ "podcasts" :=
    append_ne_of_length_lt _ _ _ (by decide)
  constructor
  · simp [moduleInit, mkdirEx, h1, h2, h3, h4]
  · simp [moduleInit, mkdirEx_files]

/-- C9: All configuration of one execution is derived from the single
RunDate value d fixed at startup: every registered agent uses the session
id session_d, the workflow uses workflow_session_d, both teams use
session_d, the episode directory is podcasts/d, and every agent's output
path is the pure naming function artifactName applied to d and its output
kind — so all stages of one run agree on the same partition key. -/
theorem c9_run_date_single_source (d : String) :
    (∀ a ∈ (agent_os d).agents, a.sessionId = "session_" ++ d) ∧
    (daily_workflow d).sessionId = "workflow_session_" ++ d ∧
    (daily_team d).sessionId = "session_" ++ d ∧
    (podcast_team d).sessionId = "session_" ++ d ∧
    episode_dir d = "podcasts/" ++ d ∧
    (∀ a ∈ (agent_os d).agents, a.outputFile = artifactName d a.outKind) ∧
    (∀ a ∈ (daily_workflow d).steps, a ∈ (agent_os d).agents) := by
  refine ⟨?_, rfl, rfl, rfl, rfl, ?_, ?_⟩
  · intro a ha
    simp only [agent_os, List.mem_cons, List.not_mem_nil, or_false] at ha
    rcases ha with rfl | rfl | rfl | rfl | rfl | rfl <;> rfl
  · intro a ha
    simp only [agent_os, List.mem_cons, List.not_mem_nil, or_false] at ha
    rcases ha with rfl | rfl | rfl | rfl | rfl | rfl <;> rfl
  · intro a ha
    simp only [daily_workflow, List.mem_cons, List.not_mem_nil,
      or_false] at ha
    rcases ha with rfl | rfl | rfl | rfl | rfl <;>
      simp [agent_os, List.mem_cons]

/-- Witness for C9: the HN researcher at RunDate 2024-05-01 carries the
session id and output path derived from that date. -/
theorem c9_run_date_single_source_witness :
    (hn_researcher "2024-05-01").sessionId = "session_" ++ "2024-05-01" ∧
    (hn_researcher "2024-05-01").outputFile =
      artifactName "2024-05-01" (hn_researcher "2024-05-01").outKind := by
  have h := c9_run_date_single_source "2024-05-01"
  exact ⟨h.1 (hn_researcher "2024-05-01") (by simp [agent_os]),
    h.2.2.2.2.2.1 (hn_researcher "2024-05-01") (by simp [agent_os])⟩

/-- C10: The daily workflow's step list is exactly the five agents
hn_researcher, arxiv_researcher, writer, podcast_script_writer,
podcast_producer in that order; the trend analyst is not a step, it is
the only registered agent with search_knowledge enabled (every workflow
step has it disabled, so the scheduled pipeline never performs a
knowledge-base search), and it is reachable only as a standalone
registered agent. -/
theorem c10_workflow_excludes_trend_analyst (d : String) :
    ((daily_workflow d).steps).map AgentConfig.name =
      ["HN Reddit Researcher", "ArXiv Researcher", "Report Writer",
       "Podcast Script Writer", "Podcast Producer"] ∧
    trend_analyst d ∉ (daily_workflow d).steps ∧
    (∀ a ∈ (daily_workflow d).steps, a.searchKnowledge = false) ∧
    (trend_analyst d).searchKnowledge = true ∧
    trend_analyst d ∈ (agent_os d).agents ∧
    (∀ a ∈ (agent_os d).agents, a.searchKnowledge = true →
      a = trend_analyst d) := by
  refine ⟨rfl, ?_, ?_, rfl, ?_, ?_⟩
  · intro h
    simp only [daily_workflow, List.mem_cons, List.not_mem_nil,
      or_false] at h
    rcases h with h | h | h | h | h <;>
      · have hn := congrArg AgentConfig.name h
        simp [trend_analyst, hn_researcher, arxiv_researcher, writer,
          podcast_script_writer, podcast_producer] at hn
  · intro a ha
    simp only [daily_workflow, List.mem_cons, List.not_mem_nil,
      or_false] at ha
    rcases ha with rfl | rfl | rfl | rfl | rfl <;> rfl
  · simp [agent_os, List.mem_cons]
  · intro a ha hsk
    simp only [agent_os, List.mem_cons, List.not_mem_nil, or_false] at ha
    rcases ha with rfl | rfl | rfl | rfl | rfl | rfl
    · simp [hn_researcher] at hsk
    · simp [arxiv_researcher] at hsk
    · simp [writer] at hsk
    · rfl
    · simp [podcast_script_writer] at hsk
    · simp [podcast_producer] at hsk

/-- Witness for C10: at RunDate 2024-05-01 the report writer step has
knowledge search disabled and the trend analyst is the unique agent with
it enabled. -/
theorem c10_workflow_excludes_trend_analyst_witness :
    (writer "2024-05-01").searchKnowledge = false ∧
    trend_analyst "2024-05-01" = trend_analyst "2024-05-01" := by
  have h := c10_workflow_excludes_trend_analyst "2024-05-01"
  exact ⟨h.2.2.1 (writer "2024-05-01") (by simp [daily_workflow]),
    h.2.2.2.2.2 (trend_analyst "2024-05-01") (by simp [agent_os]) rfl⟩

end DailyAI
